import Mathlib

/-!
Shallow embedding of the trading-algo core: the technical-indicator engine
(`TechnicalAnalysis` in the source), the strategy decision module
(`TradingStrategy`), the database trade/portfolio layer (`DatabaseManager`)
and the trade lifecycle engine (`TradingEngine`).  Prices and cash are
modelled as rationals; fallible computations return `Option`/`Except`.
-/

namespace TradingAlgo

/-! ## Configuration (src/backend/src/config/index.ts, default values) -/

namespace Config

def rsiPeriod : Nat := 14
def rsiOversold : ℚ := 30
def rsiOverbought : ℚ := 70
def maShortPeriod : Nat := 20
def maLongPeriod : Nat := 50
def riskPerTrade : ℚ := 2 / 100
def maxPositionSize : ℚ := 1 / 10

end Config

/-! ## Data model -/

/-- A daily price bar (`StockData` in the source).  Sequences are ordered
most-recent-first, as delivered by the market-data layer. -/
structure StockData where
  close : ℚ
  high : ℚ
  low : ℚ
  deriving Repr, DecidableEq

/-- Trade action / signal values.  The source uses the string literals
`'BUY' | 'SELL' | 'HOLD'`; a trade's `action` only ever holds `BUY` or
`SELL`. -/
inductive Signal where
  | BUY
  | SELL
  | HOLD
  deriving Repr, DecidableEq

/-- Trade status (`'OPEN' | 'CLOSED'`). -/
inductive Status where
  | OPEN
  | CLOSED
  deriving Repr, DecidableEq

/-! ## Indicator engine (`TechnicalAnalysis`, src/unnamed/part_003) -/

/-- Chronological close-to-close changes: for the chronological price list
`prices`, the list whose `i`-th entry is `prices[i+1] - prices[i]`. -/
def priceChanges (prices : List ℚ) : List ℚ :=
  List.zipWith (fun b a => b - a) prices.tail prices

/-- The final smoothed `(avgGain, avgLoss)` pair of `calculateRSI`:
initial averages over the first `period` chronological changes, then
Wilder smoothing over the remaining changes. -/
def rsiAverages (data : List StockData) (period : Nat) : ℚ × ℚ :=
  let prices := (data.map (·.close)).reverse
  let changes := priceChanges prices
  let gains := ((changes.take period).map (fun c => if c > 0 then c else 0)).sum
  let losses := ((changes.take period).map (fun c => if c > 0 then 0 else -c)).sum
  (changes.drop period).foldl
    (fun p c =>
      let gain := if c > 0 then c else 0
      let loss := if c < 0 then -c else 0
      ((p.1 * ((period : ℚ) - 1) + gain) / period,
       (p.2 * ((period : ℚ) - 1) + loss) / period))
    (gains / period, losses / period)

/-- `TechnicalAnalysis.calculateRSI`: Wilder's smoothed RSI over the
most-recent-first bar list; fails when fewer than `period + 1` bars. -/
def calculateRSI (data : List StockData) (period : Nat := Config.rsiPeriod) :
    Option ℚ :=
  if data.length < period + 1 then none
  else
    let avg := rsiAverages data period
    if avg.2 = 0 then some 100
    else some (100 - 100 / (1 + avg.1 / avg.2))

/-- `TechnicalAnalysis.calculateSMA`: mean of the most recent `period`
closes; fails when fewer than `period` bars. -/
def calculateSMA (data : List StockData) (period : Nat) : Option ℚ :=
  if data.length < period then none
  else some (((data.take period).map (·.close)).sum / period)

/-- `TechnicalAnalysis.calculateEMA`: SMA seed over the first `period`
chronological bars, then exponential smoothing forward; fails when fewer
than `period` bars. -/
def calculateEMA (data : List StockData) (period : Nat) : Option ℚ :=
  if data.length < period then none
  else
    let m : ℚ := 2 / ((period : ℚ) + 1)
    let prices := (data.map (·.close)).reverse
    let seed := (prices.take period).sum / period
    some ((prices.drop period).foldl (fun e p => (p - e) * m + e) seed)

/-- `TechnicalAnalysis.calculateATR`: simple average of the first `period`
true ranges, each from a bar and the next-older bar's close; fails when
fewer than `period + 1` bars. -/
def calculateATR (data : List StockData) (period : Nat := 14) : Option ℚ :=
  if data.length < period + 1 then none
  else
    let trs := List.zipWith
      (fun cur next =>
        max (cur.high - cur.low)
          (max |cur.high - next.close| |cur.low - next.close|))
      data data.tail
    some ((trs.take period).sum / period)

/-- `TechnicalAnalysis.calculateSupportResistance`: min low / max high over
the most recent `lookback` bars, the genuine extrema of the nonempty slice
(`0` only on an empty slice, standing in for the source's
`Math.min()/Math.max()` of an empty spread). -/
def calculateSupportResistance (data : List StockData) (lookback : Nat := 20) :
    ℚ × ℚ :=
  let recent := data.take lookback
  let support :=
    match recent.map (·.low) with
    | [] => 0
    | x :: xs => xs.foldl min x
  let resistance :=
    match recent.map (·.high) with
    | [] => 0
    | x :: xs => xs.foldl max x
  (support, resistance)

/-- The indicator snapshot returned by `TechnicalAnalysis.getIndicators`. -/
structure TechnicalIndicators where
  rsi : ℚ
  maShort : ℚ
  maLong : ℚ
  signal : Signal
  deriving Repr, DecidableEq

/-- The RSI + MA-crossover signal rule of `TechnicalAnalysis.getIndicators`:
BUY on oversold RSI with bullish crossover, SELL on overbought RSI with
bearish crossover, otherwise HOLD. -/
def signalRule (rsi maShort maLong : ℚ) : Signal :=
  let isOversold := rsi < Config.rsiOversold
  let isBullishCrossover := maShort > maLong
  let isOverbought := rsi > Config.rsiOverbought
  let isBearishCrossover := maShort < maLong
  if isOversold ∧ isBullishCrossover then Signal.BUY
  else if isOverbought ∧ isBearishCrossover then Signal.SELL
  else Signal.HOLD

/-- `TechnicalAnalysis.getIndicators`: RSI(14), SMA(20), SMA(50) and the
RSI + MA-crossover signal rule. -/
def getIndicators (data : List StockData) : Option TechnicalIndicators := do
  let rsi ← calculateRSI data Config.rsiPeriod
  let maShort ← calculateSMA data Config.maShortPeriod
  let maLong ← calculateSMA data Config.maLongPeriod
  some ⟨rsi, maShort, maLong, signalRule rsi maShort maLong⟩

/-! ## Trade record (`Trade` in src/backend/src/types) -/

/-- The persisted trade record.  Exit fields are `none` until the trade is
closed; `pnl`/`pnlPercent` are derived at close time. -/
structure Trade where
  symbol : String
  action : Signal
  quantity : ℚ
  entryPrice : ℚ
  stopLoss : ℚ
  takeProfit : ℚ
  status : Status
  exitPrice : Option ℚ := none
  exitReason : Option String := none
  pnl : Option ℚ := none
  pnlPercent : Option ℚ := none
  deriving Repr, DecidableEq

/-! ## Strategy decision module (`TradingStrategy`, src/backend/src/services/alpacaService.ts) -/

/-- `TradingStrategy.calculatePositionSize`: risk-based share count capped
by the maximum position fraction of the account. -/
def calculatePositionSize (accountBalance entryPrice stopLoss : ℚ) : ℤ :=
  let riskAmount := accountBalance * Config.riskPerTrade
  let riskPerShare := |entryPrice - stopLoss|
  if riskPerShare = 0 then 0
  else
    let shares := ⌊riskAmount / riskPerShare⌋
    let maxShares := ⌊accountBalance * Config.maxPositionSize / entryPrice⌋
    min shares maxShares

/-- The exit reasons `TradingStrategy.checkExitConditions` can report,
abstracting the interpolated message strings of the source. -/
inductive ExitReason where
  | stopLossHit
  | takeProfitReached
  | technicalReversal
  | withinRange
  deriving Repr, DecidableEq

/-- `TradingStrategy.checkExitConditions`, with the externally fetched
current quote price and fresh indicator snapshot passed in explicitly.
Returns the `shouldExit` flag and the reported reason. -/
def checkExitConditions (trade : Trade) (currentPrice : ℚ)
    (indicators : TechnicalIndicators) : Bool × ExitReason :=
  if trade.action = Signal.BUY ∧ currentPrice ≤ trade.stopLoss then
    (true, ExitReason.stopLossHit)
  else if trade.action = Signal.SELL ∧ currentPrice ≥ trade.stopLoss then
    (true, ExitReason.stopLossHit)
  else if trade.action = Signal.BUY ∧ currentPrice ≥ trade.takeProfit then
    (true, ExitReason.takeProfitReached)
  else if trade.action = Signal.SELL ∧ currentPrice ≤ trade.takeProfit then
    (true, ExitReason.takeProfitReached)
  else if trade.action = Signal.BUY ∧
      (indicators.rsi > 70 ∨ indicators.signal = Signal.SELL) then
    (true, ExitReason.technicalReversal)
  else if trade.action = Signal.SELL ∧
      (indicators.rsi < 30 ∨ indicators.signal = Signal.BUY) then
    (true, ExitReason.technicalReversal)
  else (false, ExitReason.withinRange)

/-- Result record of `TradingStrategy.analyzeStock`. -/
structure AnalysisResult where
  shouldTrade : Bool
  action : Signal
  rsi : ℚ
  maShort : ℚ
  maLong : ℚ
  atr : ℚ
  support : ℚ
  resistance : ℚ
  entryPrice : ℚ
  stopLoss : ℚ
  takeProfit : ℚ
  deriving Repr, DecidableEq

/-- `TradingStrategy.analyzeStock`, with the fetched daily-bar list passed
in explicitly.  Rejects the symbol outright when fewer than
`maLongPeriod + 10` bars are available, before any indicator runs. -/
def analyzeStock (dailyData : List StockData) : Except String AnalysisResult :=
  if dailyData.length < Config.maLongPeriod + 10 then
    Except.error "Insufficient data for analysis"
  else
    match getIndicators dailyData, calculateATR dailyData,
        dailyData.head? with
    | some indicators, some atr, some bar0 =>
      let sr := calculateSupportResistance dailyData
      let currentPrice := bar0.close
      if indicators.signal = Signal.BUY then
        let stopLoss := max (currentPrice - 2 * atr) (sr.1 * (98 / 100))
        let risk := currentPrice - stopLoss
        Except.ok
          ⟨true, Signal.BUY, indicators.rsi, indicators.maShort,
            indicators.maLong, atr, sr.1, sr.2, currentPrice, stopLoss,
            currentPrice + risk * 3⟩
      else if indicators.signal = Signal.SELL then
        let stopLoss := min (currentPrice + 2 * atr) (sr.2 * (102 / 100))
        let risk := stopLoss - currentPrice
        Except.ok
          ⟨true, Signal.SELL, indicators.rsi, indicators.maShort,
            indicators.maLong, atr, sr.1, sr.2, currentPrice, stopLoss,
            currentPrice - risk * 3⟩
      else
        Except.ok
          ⟨false, Signal.HOLD, indicators.rsi, indicators.maShort,
            indicators.maLong, atr, sr.1, sr.2, currentPrice, 0, 0⟩
    | _, _, _ => Except.error "Insufficient data for analysis"

/-! ## Database layer (`DatabaseManager`, src/backend/src/database/index.ts) -/

/-- `DatabaseManager.closeTrade` applied to a fetched trade record: fills
the exit fields and the derived `pnl`/`pnlPercent` and marks the record
`CLOSED`. -/
def dbCloseTrade (trade : Trade) (exitPrice : ℚ) (exitReason : String) :
    Trade :=
  let pnl :=
    if trade.action = Signal.BUY then
      (exitPrice - trade.entryPrice) * trade.quantity
    else (trade.entryPrice - exitPrice) * trade.quantity
  let pnlPercent := (exitPrice - trade.entryPrice) / trade.entryPrice * 100
  { trade with
      status := Status.CLOSED
      exitPrice := some exitPrice
      exitReason := some exitReason
      pnl := some pnl
      pnlPercent := some pnlPercent }

/-! ## Trade lifecycle engine (`TradingEngine`, src/backend/src/services/tradingEngine.ts) -/

/-- The persistent state the engine mutates: the trades table (a trade's id
is its index, mirroring the append-only autoincrement key) and the
singleton portfolio row. -/
structure EngineState where
  trades : List Trade
  cash : ℚ
  initialCash : ℚ
  deriving Repr, DecidableEq

/-- The initial portfolio: no trades, `cash = initialCash`. -/
def initialState (initialCash : ℚ) : EngineState :=
  ⟨[], initialCash, initialCash⟩

/-- `TradingEngine.executeTrade` in simulation mode: reject a BUY whose
cost exceeds current cash, otherwise persist the record and deduct the
cost from cash for a BUY.  Returns the new state and the new trade's id. -/
def executeTrade (st : EngineState) (trade : Trade) :
    Except String (EngineState × Nat) :=
  let cost := trade.entryPrice * trade.quantity
  if trade.action = Signal.BUY ∧ cost > st.cash then
    Except.error "Insufficient funds"
  else
    let tradeId := st.trades.length
    let st' : EngineState := { st with trades := st.trades ++ [trade] }
    if trade.action = Signal.BUY then
      Except.ok ({ st' with cash := st'.cash - cost }, tradeId)
    else Except.ok (st', tradeId)

/-- `TradingEngine.closeTrade`, with the current price and exit reason from
the exit-condition check passed in explicitly: unknown id fails, an
already-CLOSED trade is a no-op, otherwise the record is closed and cash
is credited (BUY) or debited (SELL) with `currentPrice × quantity`. -/
def closeTrade (st : EngineState) (tradeId : Nat) (currentPrice : ℚ)
    (reason : String) : Except String EngineState :=
  match st.trades[tradeId]? with
  | none => Except.error "Trade not found"
  | some trade =>
    if trade.status = Status.CLOSED then Except.ok st
    else
      let st' : EngineState :=
        { st with trades := st.trades.set tradeId (dbCloseTrade trade currentPrice reason) }
      if trade.action = Signal.BUY then
        Except.ok { st' with cash := st'.cash + currentPrice * trade.quantity }
      else
        Except.ok { st' with cash := st'.cash - currentPrice * trade.quantity }

/-! ## Operation sequences over the engine -/

/-- One engine operation: execute a proposed trade, or close a trade by id
at an externally observed current price. -/
inductive Op where
  | exec (trade : Trade)
  | close (tradeId : Nat) (currentPrice : ℚ) (reason : String)
  deriving Repr, DecidableEq

/-- Run one operation; a failed operation (insufficient funds, unknown id)
leaves the state unchanged, mirroring the thrown exception. -/
def runOp (st : EngineState) : Op → EngineState
  | Op.exec trade =>
    match executeTrade st trade with
    | Except.ok (st', _) => st'
    | Except.error _ => st
  | Op.close tradeId price reason =>
    match closeTrade st tradeId price reason with
    | Except.ok st' => st'
    | Except.error _ => st

/-- Run a sequence of operations from a state. -/
def run (st : EngineState) (ops : List Op) : EngineState :=
  ops.foldl runOp st

/-- Entry cost of a trade counted while it is an OPEN BUY, else `0`. -/
def openBuyContrib (t : Trade) : ℚ :=
  if t.status = Status.OPEN ∧ t.action = Signal.BUY then
    t.entryPrice * t.quantity
  else 0

/-- Stored net pnl of a trade counted once it is a CLOSED BUY, else `0`. -/
def closedBuyContrib (t : Trade) : ℚ :=
  if t.status = Status.CLOSED ∧ t.action = Signal.BUY then t.pnl.getD 0
  else 0

/-- Σ (entryPrice × quantity) over still-OPEN BUY trades. -/
def openBuyCost (trades : List Trade) : ℚ :=
  (trades.map openBuyContrib).sum

/-- Σ (stored pnl) over CLOSED BUY trades. -/
def closedBuyPnl (trades : List Trade) : ℚ :=
  (trades.map closedBuyContrib).sum

/-- Spec-side condition: the current price has breached the trade's stop
loss (below it for a BUY, above it for a SELL). -/
def stopLossBreached (t : Trade) (p : ℚ) : Prop :=
  (t.action = Signal.BUY ∧ p ≤ t.stopLoss) ∨
  (t.action = Signal.SELL ∧ p ≥ t.stopLoss)

/-- Spec-side condition: the current price has breached the trade's take
profit (above it for a BUY, below it for a SELL). -/
def takeProfitBreached (t : Trade) (p : ℚ) : Prop :=
  (t.action = Signal.BUY ∧ p ≥ t.takeProfit) ∨
  (t.action = Signal.SELL ∧ p ≤ t.takeProfit)

/-- Spec-side condition: the fresh indicators signal a reversal against
the trade — RSI past the opposite threshold, or an opposite signal. -/
def signalReversal (t : Trade) (ind : TechnicalIndicators) : Prop :=
  (t.action = Signal.BUY ∧ (ind.rsi > 70 ∨ ind.signal = Signal.SELL)) ∨
  (t.action = Signal.SELL ∧ (ind.rsi < 30 ∨ ind.signal = Signal.BUY))

/-- An operation sequence morally produced by the BUY trading lifecycle:
every executed proposal is a fresh OPEN BUY trade (close operations are
unrestricted). -/
def ValidBuyOp : Op → Prop
  | Op.exec t => t.action = Signal.BUY ∧ t.status = Status.OPEN
  | Op.close _ _ _ => True

/-! ## Theorems -/

/-- C8: for every account balance, entry price and stop loss,
`calculatePositionSize` returns 0 when `entryPrice = stopLoss`, and
otherwise returns the minimum of the risk-based share count
`⌊balance × riskFraction / |entryPrice − stopLoss|⌋` and the position cap
`⌊balance × maxPositionFraction / entryPrice⌋`; zero is a valid result. -/
theorem calculatePositionSize_spec (accountBalance entryPrice stopLoss : ℚ) :
    calculatePositionSize accountBalance entryPrice stopLoss =
      if entryPrice = stopLoss then 0
      else
        min ⌊accountBalance * Config.riskPerTrade / |entryPrice - stopLoss|⌋
          ⌊accountBalance * Config.maxPositionSize / entryPrice⌋ := by
  unfold calculatePositionSize
  rcases eq_or_ne entryPrice stopLoss with h | h
  · simp [h]
  · have habs : |entryPrice - stopLoss| ≠ 0 := by
      simpa [sub_eq_zero] using h
    simp [habs, h]

/-- C6: on closing any trade, the stored `pnl` is
`(exitPrice − entryPrice) × quantity` for a BUY and
`(entryPrice − exitPrice) × quantity` for a SELL, while `pnlPercent` is
`(exitPrice − entryPrice)/entryPrice × 100` regardless of action; in
particular a BUY with positive quantity closed above its entry price has
strictly positive pnl. -/
theorem dbCloseTrade_pnl_spec (t : Trade) (exitPrice : ℚ) (reason : String) :
    (dbCloseTrade t exitPrice reason).pnl =
      some (if t.action = Signal.BUY then
              (exitPrice - t.entryPrice) * t.quantity
            else (t.entryPrice - exitPrice) * t.quantity) ∧
    (dbCloseTrade t exitPrice reason).pnlPercent =
      some ((exitPrice - t.entryPrice) / t.entryPrice * 100) ∧
    (t.action = Signal.BUY → t.entryPrice < exitPrice → 0 < t.quantity →
      (dbCloseTrade t exitPrice reason).pnl =
        some ((exitPrice - t.entryPrice) * t.quantity) ∧
      0 < (exitPrice - t.entryPrice) * t.quantity) := by
  refine ⟨rfl, rfl, fun hb hlt hq => ⟨by simp [dbCloseTrade, hb], ?_⟩⟩
  exact mul_pos (by linarith) hq

/-- Witness for C6: a BUY of 10 shares entered at 50 and closed at 60 has
pnl `(60 − 50) × 10 > 0`. -/
theorem dbCloseTrade_pnl_spec_witness :
    (dbCloseTrade
        { symbol := "AAPL", action := Signal.BUY, quantity := 10,
          entryPrice := 50, stopLoss := 45, takeProfit := 65,
          status := Status.OPEN } 60 "take profit").pnl =
      some ((60 - 50) * 10) ∧
    (0 : ℚ) < (60 - 50) * 10 := by
  have h := (dbCloseTrade_pnl_spec
    { symbol := "AAPL", action := Signal.BUY, quantity := 10,
      entryPrice := 50, stopLoss := 45, takeProfit := 65,
      status := Status.OPEN } 60 "take profit").2.2 rfl (by norm_num)
    (by norm_num)
  exact h

/-- C2: a proposed BUY whose cost `entryPrice × quantity` exceeds current
cash makes `executeTrade` fail with the insufficient-funds error, creating
no trade record and leaving the state (in particular the cash balance)
unchanged. -/
theorem executeTrade_insufficient_funds (st : EngineState) (t : Trade)
    (hb : t.action = Signal.BUY)
    (hc : st.cash < t.entryPrice * t.quantity) :
    executeTrade st t = Except.error "Insufficient funds" ∧
    runOp st (Op.exec t) = st := by
  have herr : executeTrade st t = Except.error "Insufficient funds" := by
    simp [executeTrade, hb, hc]
  exact ⟨herr, by simp [runOp, herr]⟩

/-- Witness for C2: buying 10 shares at 50 with only 100 cash is rejected
and changes nothing. -/
theorem executeTrade_insufficient_funds_witness :
    executeTrade (initialState 100)
        { symbol := "AAPL", action := Signal.BUY, quantity := 10,
          entryPrice := 50, stopLoss := 45, takeProfit := 65,
          status := Status.OPEN } =
      Except.error "Insufficient funds" ∧
    runOp (initialState 100)
        (Op.exec
          { symbol := "AAPL", action := Signal.BUY, quantity := 10,
            entryPrice := 50, stopLoss := 45, takeProfit := 65,
            status := Status.OPEN }) =
      initialState 100 := by
  exact executeTrade_insufficient_funds (initialState 100)
    { symbol := "AAPL", action := Signal.BUY, quantity := 10,
      entryPrice := 50, stopLoss := 45, takeProfit := 65,
      status := Status.OPEN } rfl (by norm_num [initialState])

/-- C5 counterexample: a single bar is fewer than `period + 1 = 2` bars for
`period = 1`, yet `calculateSMA` succeeds on it, so it does not fail on
every sequence shorter than `period + 1`. -/
theorem calculateSMA_succeeds_at_period_bars :
    ([⟨100, 100, 100⟩] : List StockData).length < 1 + 1 ∧
    calculateSMA [⟨100, 100, 100⟩] 1 = some 100 := by
  constructor
  · simp
  · norm_num [calculateSMA]

/-- C5 (amended): RSI and ATR fail on every sequence with fewer than
`period + 1` bars, while SMA and EMA fail exactly when the sequence has
fewer than `period` bars — in particular both succeed on exactly `period`
bars. -/
theorem indicator_insufficient_data (data : List StockData) (period : Nat) :
    (data.length < period + 1 →
      calculateRSI data period = none ∧ calculateATR data period = none) ∧
    (calculateSMA data period = none ↔ data.length < period) ∧
    (calculateEMA data period = none ↔ data.length < period) := by
  refine ⟨fun h => ⟨?_, ?_⟩, ?_, ?_⟩
  · simp [calculateRSI, h]
  · simp [calculateATR, h]
  · unfold calculateSMA
    split_ifs with h <;> simp [h]
  · unfold calculateEMA
    split_ifs with h <;> simp [h]

/-- Witness for C5 (amended): with `period = 1` and a single bar, RSI and
ATR fail while the SMA/EMA failure conditions are genuinely false — both
succeed on exactly `period` bars. -/
theorem indicator_insufficient_data_witness :
    (([⟨100, 100, 100⟩] : List StockData).length < 1 + 1 →
      calculateRSI [⟨100, 100, 100⟩] 1 = none ∧
      calculateATR [⟨100, 100, 100⟩] 1 = none) ∧
    (calculateSMA [⟨100, 100, 100⟩] 1 = none ↔
      ([⟨100, 100, 100⟩] : List StockData).length < 1) ∧
    (calculateEMA [⟨100, 100, 100⟩] 1 = none ↔
      ([⟨100, 100, 100⟩] : List StockData).length < 1) :=
  indicator_insufficient_data [⟨100, 100, 100⟩] 1

/-- C10: `analyzeStock` rejects every bar sequence with fewer than
`maLongPeriod + 10 = 60` bars, even though 51 bars are enough for every
indicator it uses: on a concrete 51-bar sequence `getIndicators`,
`calculateRSI`, both SMAs and `calculateATR` all succeed, yet
`analyzeStock` still fails with the insufficient-data error. -/
theorem analyzeStock_minimum_bars :
    (∀ data : List StockData, data.length < 60 →
      analyzeStock data = Except.error "Insufficient data for analysis") ∧
    (List.replicate 51 (⟨100, 100, 100⟩ : StockData)).length = 51 ∧
    (getIndicators (List.replicate 51 ⟨100, 100, 100⟩)).isSome = true ∧
    (calculateRSI (List.replicate 51 ⟨100, 100, 100⟩)).isSome = true ∧
    (calculateSMA (List.replicate 51 ⟨100, 100, 100⟩) 20).isSome = true ∧
    (calculateSMA (List.replicate 51 ⟨100, 100, 100⟩) 50).isSome = true ∧
    (calculateATR (List.replicate 51 ⟨100, 100, 100⟩)).isSome = true ∧
    analyzeStock (List.replicate 51 ⟨100, 100, 100⟩) =
      Except.error "Insufficient data for analysis" := by
  refine ⟨fun data h => ?_, by simp, ?_, ?_, ?_, ?_, ?_, ?_⟩
  · have h60 : data.length < Config.maLongPeriod + 10 := h
    simp [analyzeStock, h60]
  · norm_num [getIndicators, signalRule, calculateRSI, calculateSMA, rsiAverages,
      priceChanges, List.replicate, Config.rsiPeriod, Config.maShortPeriod,
      Config.maLongPeriod, Config.rsiOversold, Config.rsiOverbought]
  · norm_num [calculateRSI, rsiAverages, priceChanges, List.replicate,
      Config.rsiPeriod]
  · norm_num [calculateSMA, List.replicate]
  · norm_num [calculateSMA, List.replicate]
  · norm_num [calculateATR, List.replicate]
  · have h60 : (List.replicate 51 (⟨100, 100, 100⟩ : StockData)).length <
        Config.maLongPeriod + 10 := by
      norm_num [Config.maLongPeriod]
    unfold analyzeStock
    rw [if_pos h60]

/-- Witness for C10: the empty bar list is shorter than 60 bars and is
rejected. -/
theorem analyzeStock_minimum_bars_witness :
    ([] : List StockData).length < 60 ∧
    analyzeStock ([] : List StockData) =
      Except.error "Insufficient data for analysis" :=
  ⟨by simp, analyzeStock_minimum_bars.1 [] (by simp)⟩

/-- C9: `closeTrade` on an already-CLOSED trade is a no-op, so closing the
same trade id twice (at any later observed price) leaves the trade record
and the portfolio cash exactly as after the first close. -/
theorem closeTrade_idempotent (st st' : EngineState) (tradeId : Nat)
    (p p' : ℚ) (r r' : String)
    (h : closeTrade st tradeId p r = Except.ok st') :
    closeTrade st' tradeId p' r' = Except.ok st' := by
  unfold closeTrade at h
  cases hget : st.trades[tradeId]? with
  | none => simp [hget] at h
  | some t =>
    simp only [hget] at h
    by_cases hc : t.status = Status.CLOSED
    · rw [if_pos hc] at h
      obtain rfl : st = st' := by simpa using h
      unfold closeTrade
      simp [hget, hc]
    · rw [if_neg hc] at h
      have hlt : tradeId < st.trades.length := by
        rcases List.getElem?_eq_some.mp hget with ⟨h1, _⟩
        exact h1
      have hset : (st.trades.set tradeId (dbCloseTrade t p r))[tradeId]? =
          some (dbCloseTrade t p r) :=
        List.getElem?_set_self (by simpa using hlt)
      by_cases hb : t.action = Signal.BUY
      · rw [if_pos hb] at h
        obtain rfl : _ = st' := by simpa using h
        unfold closeTrade
        simp only [hset]
        rfl
      · rw [if_neg hb] at h
        obtain rfl : _ = st' := by simpa using h
        unfold closeTrade
        simp only [hset]
        rfl

/-- Witness for C9: closing the single open BUY trade of a concrete state
yields a state on which a second close is a no-op. -/
theorem closeTrade_idempotent_witness :
    closeTrade
        ⟨[{ symbol := "AAPL", action := Signal.BUY, quantity := 10,
            entryPrice := 50, stopLoss := 45, takeProfit := 65,
            status := Status.CLOSED, exitPrice := some 60,
            exitReason := some "exit", pnl := some 100,
            pnlPercent := some 20 }], 1100, 1000⟩ 0 70 "again" =
      Except.ok
        ⟨[{ symbol := "AAPL", action := Signal.BUY, quantity := 10,
            entryPrice := 50, stopLoss := 45, takeProfit := 65,
            status := Status.CLOSED, exitPrice := some 60,
            exitReason := some "exit", pnl := some 100,
            pnlPercent := some 20 }], 1100, 1000⟩ := by
  have h : closeTrade
      ⟨[{ symbol := "AAPL", action := Signal.BUY, quantity := 10,
          entryPrice := 50, stopLoss := 45, takeProfit := 65,
          status := Status.OPEN }], 500, 1000⟩ 0 60 "exit" =
      Except.ok
        ⟨[{ symbol := "AAPL", action := Signal.BUY, quantity := 10,
            entryPrice := 50, stopLoss := 45, takeProfit := 65,
            status := Status.CLOSED, exitPrice := some 60,
            exitReason := some "exit", pnl := some 100,
            pnlPercent := some 20 }], 1100, 1000⟩ := by
    norm_num [closeTrade, dbCloseTrade]
    decide
  exact closeTrade_idempotent _ _ 0 60 70 "exit" "again" h

/-- C7: `checkExitConditions` reports the first matching condition in the
fixed priority order stop-loss breach, take-profit breach, signal
reversal — even when one price satisfies several of them at once — and
reports no exit when none matches. -/
theorem checkExitConditions_priority (t : Trade) (p : ℚ)
    (ind : TechnicalIndicators) :
    (stopLossBreached t p →
      checkExitConditions t p ind = (true, ExitReason.stopLossHit)) ∧
    (¬stopLossBreached t p → takeProfitBreached t p →
      checkExitConditions t p ind = (true, ExitReason.takeProfitReached)) ∧
    (¬stopLossBreached t p → ¬takeProfitBreached t p →
      signalReversal t ind →
      checkExitConditions t p ind = (true, ExitReason.technicalReversal)) ∧
    (¬stopLossBreached t p → ¬takeProfitBreached t p →
      ¬signalReversal t ind →
      checkExitConditions t p ind = (false, ExitReason.withinRange)) := by
  rcases ha : t.action with _ | _ | _
  · by_cases h1 : p ≤ t.stopLoss <;>
      by_cases h2 : p ≥ t.takeProfit <;>
        by_cases h3 : ind.rsi > 70 ∨ ind.signal = Signal.SELL <;>
          simp [checkExitConditions, stopLossBreached, takeProfitBreached,
            signalReversal, ha, h1, h2, h3]
  · by_cases h1 : p ≥ t.stopLoss <;>
      by_cases h2 : p ≤ t.takeProfit <;>
        by_cases h3 : ind.rsi < 30 ∨ ind.signal = Signal.BUY <;>
          simp [checkExitConditions, stopLossBreached, takeProfitBreached,
            signalReversal, ha, h1, h2, h3]
  · simp [checkExitConditions, stopLossBreached, takeProfitBreached,
      signalReversal, ha]

/-- Witness for C7: a BUY with stop loss 100 and take profit 50 seen at
price 60 with RSI 80 satisfies all three conditions at once, and the
reported reason is the stop-loss one. -/
theorem checkExitConditions_priority_witness :
    stopLossBreached
        { symbol := "AAPL", action := Signal.BUY, quantity := 10,
          entryPrice := 120, stopLoss := 100, takeProfit := 50,
          status := Status.OPEN } 60 ∧
    takeProfitBreached
        { symbol := "AAPL", action := Signal.BUY, quantity := 10,
          entryPrice := 120, stopLoss := 100, takeProfit := 50,
          status := Status.OPEN } 60 ∧
    signalReversal
        { symbol := "AAPL", action := Signal.BUY, quantity := 10,
          entryPrice := 120, stopLoss := 100, takeProfit := 50,
          status := Status.OPEN } ⟨80, 90, 95, Signal.SELL⟩ ∧
    checkExitConditions
        { symbol := "AAPL", action := Signal.BUY, quantity := 10,
          entryPrice := 120, stopLoss := 100, takeProfit := 50,
          status := Status.OPEN } 60 ⟨80, 90, 95, Signal.SELL⟩ =
      (true, ExitReason.stopLossHit) := by
  refine ⟨?_, ?_, ?_, ?_⟩
  · exact Or.inl ⟨rfl, by norm_num⟩
  · exact Or.inl ⟨rfl, by norm_num⟩
  · exact Or.inl ⟨rfl, Or.inl (by norm_num)⟩
  · exact (checkExitConditions_priority _ 60 _).1 (Or.inl ⟨rfl, by norm_num⟩)

/-- The signal rule yields BUY exactly on oversold RSI with bullish
crossover. -/
lemma signalRule_buy_iff (rsi maShort maLong : ℚ) :
    signalRule rsi maShort maLong = Signal.BUY ↔
      rsi < 30 ∧ maShort > maLong := by
  unfold signalRule
  dsimp only
  split_ifs with h1 h2
  · exact ⟨fun _ => h1, fun _ => rfl⟩
  · exact ⟨fun hx => absurd hx (by simp), fun hx => absurd hx h1⟩
  · exact ⟨fun hx => absurd hx (by simp), fun hx => absurd hx h1⟩

/-- The signal rule yields SELL exactly on overbought RSI with bearish
crossover. -/
lemma signalRule_sell_iff (rsi maShort maLong : ℚ) :
    signalRule rsi maShort maLong = Signal.SELL ↔
      rsi > 70 ∧ maShort < maLong := by
  unfold signalRule
  dsimp only
  split_ifs with h1 h2
  · refine ⟨fun hx => absurd hx (by simp), fun hx => ?_⟩
    have h30 : rsi < 30 := h1.1
    have h70 : rsi > 70 := hx.1
    linarith
  · exact ⟨fun _ => h2, fun _ => rfl⟩
  · exact ⟨fun hx => absurd hx (by simp), fun hx => absurd hx h2⟩

/-- The signal rule yields HOLD exactly when neither the BUY nor the SELL
conjunction holds. -/
lemma signalRule_hold_iff (rsi maShort maLong : ℚ) :
    signalRule rsi maShort maLong = Signal.HOLD ↔
      ¬(rsi < 30 ∧ maShort > maLong) ∧ ¬(rsi > 70 ∧ maShort < maLong) := by
  unfold signalRule
  dsimp only
  split_ifs with h1 h2
  · exact ⟨fun hx => absurd hx (by simp), fun hx => absurd h1 hx.1⟩
  · exact ⟨fun hx => absurd hx (by simp), fun hx => absurd h2 hx.2⟩
  · exact ⟨fun _ => ⟨h1, h2⟩, fun _ => rfl⟩

/-- C3: whenever `getIndicators` succeeds, its signal is BUY exactly when
RSI < 30 with the short MA above the long MA, SELL exactly when RSI > 70
with the short MA below the long MA, and HOLD in every other case. -/
theorem getIndicators_signal_rule (data : List StockData)
    (ind : TechnicalIndicators) (h : getIndicators data = some ind) :
    (ind.signal = Signal.BUY ↔ ind.rsi < 30 ∧ ind.maShort > ind.maLong) ∧
    (ind.signal = Signal.SELL ↔ ind.rsi > 70 ∧ ind.maShort < ind.maLong) ∧
    (ind.signal = Signal.HOLD ↔
      ¬(ind.rsi < 30 ∧ ind.maShort > ind.maLong) ∧
      ¬(ind.rsi > 70 ∧ ind.maShort < ind.maLong)) := by
  unfold getIndicators at h
  cases hr : calculateRSI data Config.rsiPeriod with
  | none => rw [hr] at h; simp at h
  | some rsi =>
    rw [hr] at h
    cases hs : calculateSMA data Config.maShortPeriod with
    | none => rw [hs] at h; simp at h
    | some maShort =>
      rw [hs] at h
      cases hl : calculateSMA data Config.maLongPeriod with
      | none => rw [hl] at h; simp at h
      | some maLong =>
        rw [hl] at h
        have h' : some
            (⟨rsi, maShort, maLong, signalRule rsi maShort maLong⟩ :
              TechnicalIndicators) = some ind := h
        obtain rfl := Option.some.inj h'
        exact ⟨signalRule_buy_iff rsi maShort maLong,
          signalRule_sell_iff rsi maShort maLong,
          signalRule_hold_iff rsi maShort maLong⟩

/-- Witness for C3: on 51 flat bars at 100 the indicators evaluate to
RSI 100 with equal MAs, and the rule yields HOLD. -/
theorem getIndicators_signal_rule_witness :
    getIndicators (List.replicate 51 ⟨100, 100, 100⟩) =
      some ⟨100, 100, 100, Signal.HOLD⟩ ∧
    ((⟨100, 100, 100, Signal.HOLD⟩ : TechnicalIndicators).signal =
        Signal.BUY ↔
      (100 : ℚ) < 30 ∧ (100 : ℚ) > 100) ∧
    ((⟨100, 100, 100, Signal.HOLD⟩ : TechnicalIndicators).signal =
        Signal.SELL ↔
      (100 : ℚ) > 70 ∧ (100 : ℚ) < 100) ∧
    ((⟨100, 100, 100, Signal.HOLD⟩ : TechnicalIndicators).signal =
        Signal.HOLD ↔
      ¬((100 : ℚ) < 30 ∧ (100 : ℚ) > 100) ∧
      ¬((100 : ℚ) > 70 ∧ (100 : ℚ) < 100)) := by
  have h : getIndicators (List.replicate 51 ⟨100, 100, 100⟩) =
      some ⟨100, 100, 100, Signal.HOLD⟩ := by
    norm_num [getIndicators, signalRule, calculateRSI, calculateSMA, rsiAverages,
      priceChanges, List.replicate, Config.rsiPeriod, Config.maShortPeriod,
      Config.maLongPeriod, Config.rsiOversold, Config.rsiOverbought]
  exact ⟨h, getIndicators_signal_rule (List.replicate 51 ⟨100, 100, 100⟩)
    ⟨100, 100, 100, Signal.HOLD⟩ h⟩

/-- Wilder smoothing preserves nonnegativity of both running averages. -/
lemma rsi_foldl_nonneg (period : Nat) (hper : 0 < period) :
    ∀ (l : List ℚ) (p : ℚ × ℚ), 0 ≤ p.1 → 0 ≤ p.2 →
      0 ≤ (l.foldl
        (fun p c =>
          let gain := if c > 0 then c else 0
          let loss := if c < 0 then -c else 0
          ((p.1 * ((period : ℚ) - 1) + gain) / period,
           (p.2 * ((period : ℚ) - 1) + loss) / period)) p).1 ∧
      0 ≤ (l.foldl
        (fun p c =>
          let gain := if c > 0 then c else 0
          let loss := if c < 0 then -c else 0
          ((p.1 * ((period : ℚ) - 1) + gain) / period,
           (p.2 * ((period : ℚ) - 1) + loss) / period)) p).2 := by
  intro l
  induction l with
  | nil => exact fun p h1 h2 => ⟨h1, h2⟩
  | cons c cs ih =>
    intro p h1 h2
    have hper1 : (1 : ℚ) ≤ (period : ℚ) := by exact_mod_cast hper
    have hpnn : (0 : ℚ) ≤ (period : ℚ) := by positivity
    have hgain : (0 : ℚ) ≤ if c > 0 then c else 0 := by
      split_ifs with h
      · exact le_of_lt h
      · exact le_refl 0
    have hloss : (0 : ℚ) ≤ if c < 0 then -c else 0 := by
      split_ifs with h
      · linarith
      · exact le_refl 0
    refine ih _ ?_ ?_
    · exact div_nonneg
        (add_nonneg (mul_nonneg h1 (by linarith)) hgain) hpnn
    · exact div_nonneg
        (add_nonneg (mul_nonneg h2 (by linarith)) hloss) hpnn

/-- Both final smoothed averages of `calculateRSI` are nonnegative. -/
lemma rsiAverages_nonneg (data : List StockData) (period : Nat)
    (hper : 0 < period) :
    0 ≤ (rsiAverages data period).1 ∧ 0 ≤ (rsiAverages data period).2 := by
  unfold rsiAverages
  dsimp only
  apply rsi_foldl_nonneg period hper
  · apply div_nonneg _ (by positivity)
    apply List.sum_nonneg
    intro x hx
    rcases List.mem_map.mp hx with ⟨c, _, rfl⟩
    split_ifs with h
    · exact le_of_lt h
    · exact le_refl 0
  · apply div_nonneg _ (by positivity)
    apply List.sum_nonneg
    intro x hx
    rcases List.mem_map.mp hx with ⟨c, _, rfl⟩
    split_ifs with h
    · exact le_refl 0
    · linarith [not_lt.mp h]

/-- C4: on any bar sequence with at least `period + 1` bars (positive
`period`), `calculateRSI` returns a value in `[0, 100]`, and returns
exactly 100 whenever the final smoothed average loss is zero. -/
theorem calculateRSI_range (data : List StockData) (period : Nat)
    (hper : 0 < period) (hlen : period + 1 ≤ data.length) :
    ∃ r, calculateRSI data period = some r ∧ 0 ≤ r ∧ r ≤ 100 ∧
      ((rsiAverages data period).2 = 0 → r = 100) := by
  have hnot : ¬(data.length < period + 1) := not_lt.mpr hlen
  obtain ⟨hg, hl⟩ := rsiAverages_nonneg data period hper
  unfold calculateRSI
  rw [if_neg hnot]
  dsimp only
  by_cases hz : (rsiAverages data period).2 = 0
  · rw [if_pos hz]
    exact ⟨100, rfl, by norm_num, by norm_num, fun _ => rfl⟩
  · rw [if_neg hz]
    have hlpos : 0 < (rsiAverages data period).2 :=
      lt_of_le_of_ne hl (Ne.symm hz)
    have hrs : 0 ≤ (rsiAverages data period).1 / (rsiAverages data period).2 :=
      div_nonneg hg (le_of_lt hlpos)
    have hdenom : (1 : ℚ) ≤
        1 + (rsiAverages data period).1 / (rsiAverages data period).2 := by
      linarith
    have hdiv_le :
        100 / (1 + (rsiAverages data period).1 / (rsiAverages data period).2) ≤
          100 := div_le_self (by norm_num) hdenom
    have hdiv_pos :
        0 < 100 / (1 + (rsiAverages data period).1 / (rsiAverages data period).2) :=
      div_pos (by norm_num) (by linarith)
    exact ⟨_, rfl, by linarith, by linarith, fun hcon => absurd hcon hz⟩

/-- Witness for C4: fifteen flat bars at 100 give RSI 100 through the
zero-average-loss branch. -/
theorem calculateRSI_range_witness :
    0 < 14 ∧
    14 + 1 ≤ (List.replicate 15 (⟨100, 100, 100⟩ : StockData)).length ∧
    ∃ r, calculateRSI (List.replicate 15 ⟨100, 100, 100⟩) 14 = some r ∧
      0 ≤ r ∧ r ≤ 100 ∧
      ((rsiAverages (List.replicate 15 ⟨100, 100, 100⟩) 14).2 = 0 →
        r = 100) :=
  ⟨by norm_num, by simp,
    calculateRSI_range (List.replicate 15 ⟨100, 100, 100⟩) 14 (by norm_num)
      (by simp)⟩

/-- Replacing the `i`-th element of a trade list changes a mapped sum by
the difference of the two elements' contributions. -/
lemma sum_map_set (f : Trade → ℚ) (l : List Trade) (i : Nat) (a b : Trade)
    (h : l[i]? = some b) :
    ((l.set i a).map f).sum = (l.map f).sum - f b + f a := by
  induction l generalizing i with
  | nil => simp at h
  | cons x xs ih =>
    cases i with
    | zero =>
      obtain rfl : x = b := by simpa using h
      simp only [List.set_cons_zero, List.map_cons, List.sum_cons]
      ring
    | succ n =>
      have h' : xs[n]? = some b := by simpa using h
      simp only [List.set_cons_succ, List.map_cons, List.sum_cons]
      rw [ih n h']
      ring

/-- `executeTrade` on an affordable BUY appends the record and deducts the
cost. -/
lemma executeTrade_ok_buy (st : EngineState) (t : Trade)
    (hb : t.action = Signal.BUY)
    (hc : ¬t.entryPrice * t.quantity > st.cash) :
    executeTrade st t = Except.ok
      (⟨st.trades ++ [t], st.cash - t.entryPrice * t.quantity,
        st.initialCash⟩, st.trades.length) := by
  unfold executeTrade
  dsimp only
  rw [if_neg (fun hx => hc hx.2), if_pos hb]

/-- `closeTrade` on an unknown id fails. -/
lemma closeTrade_not_found (st : EngineState) (i : Nat) (p : ℚ) (r : String)
    (h : st.trades[i]? = none) :
    closeTrade st i p r = Except.error "Trade not found" := by
  unfold closeTrade
  simp only [h]

/-- `closeTrade` on an already-CLOSED trade returns the state unchanged. -/
lemma closeTrade_already_closed (st : EngineState) (i : Nat) (t : Trade)
    (p : ℚ) (r : String) (hget : st.trades[i]? = some t)
    (hc : t.status = Status.CLOSED) :
    closeTrade st i p r = Except.ok st := by
  unfold closeTrade
  simp only [hget]
  rw [if_pos hc]

/-- `closeTrade` on an open BUY closes the record and credits the
proceeds. -/
lemma closeTrade_ok_open_buy (st : EngineState) (i : Nat) (t : Trade)
    (p : ℚ) (r : String) (hget : st.trades[i]? = some t)
    (hc : ¬t.status = Status.CLOSED) (hb : t.action = Signal.BUY) :
    closeTrade st i p r = Except.ok
      ⟨st.trades.set i (dbCloseTrade t p r), st.cash + p * t.quantity,
        st.initialCash⟩ := by
  unfold closeTrade
  simp only [hget]
  rw [if_neg hc]
  rw [if_pos hb]

/-- One step of the ledger invariant: each BUY-lifecycle operation keeps
`cash = initialCash − Σ open BUY entry costs + Σ closed BUY pnl`, keeps
every recorded trade a BUY, and never touches `initialCash`. -/
lemma runOp_cash_equation (st : EngineState) (op : Op) (hv : ValidBuyOp op)
    (hinv : st.cash = st.initialCash - openBuyCost st.trades
      + closedBuyPnl st.trades)
    (hbuy : ∀ t ∈ st.trades, t.action = Signal.BUY) :
    (runOp st op).cash = (runOp st op).initialCash
        - openBuyCost (runOp st op).trades
        + closedBuyPnl (runOp st op).trades ∧
    (∀ t ∈ (runOp st op).trades, t.action = Signal.BUY) ∧
    (runOp st op).initialCash = st.initialCash := by
  cases op with
  | exec t =>
    obtain ⟨hb, hS⟩ := hv
    by_cases hc : t.entryPrice * t.quantity > st.cash
    · have herr : executeTrade st t = Except.error "Insufficient funds" := by
        unfold executeTrade
        rw [if_pos ⟨hb, hc⟩]
      have hres : runOp st (Op.exec t) = st := by
        simp only [runOp, herr]
      rw [hres]
      exact ⟨hinv, hbuy, rfl⟩
    · have hres : runOp st (Op.exec t) =
          ⟨st.trades ++ [t], st.cash - t.entryPrice * t.quantity,
            st.initialCash⟩ := by
        simp only [runOp, executeTrade_ok_buy st t hb hc]
      rw [hres]
      refine ⟨?_, ?_, rfl⟩
      · have hopen : openBuyCost (st.trades ++ [t]) =
            openBuyCost st.trades + t.entryPrice * t.quantity := by
          simp [openBuyCost, openBuyContrib, hb, hS]
        have hclosed : closedBuyPnl (st.trades ++ [t]) =
            closedBuyPnl st.trades := by
          simp [closedBuyPnl, closedBuyContrib, hS]
        dsimp only
        rw [hopen, hclosed, hinv]
        ring
      · intro t' ht'
        rcases List.mem_append.mp ht' with hmem | hmem
        · exact hbuy t' hmem
        · obtain rfl : t' = t := by simpa using hmem
          exact hb
  | close i p r =>
    cases hget : st.trades[i]? with
    | none =>
      have hres : runOp st (Op.close i p r) = st := by
        simp only [runOp, closeTrade_not_found st i p r hget]
      rw [hres]
      exact ⟨hinv, hbuy, rfl⟩
    | some t =>
      have htmem : t ∈ st.trades := by
        obtain ⟨hlt, hEq⟩ := List.getElem?_eq_some.mp hget
        exact hEq ▸ List.getElem_mem hlt
      have hb : t.action = Signal.BUY := hbuy t htmem
      by_cases hc : t.status = Status.CLOSED
      · have hres : runOp st (Op.close i p r) = st := by
          simp only [runOp, closeTrade_already_closed st i t p r hget hc]
        rw [hres]
        exact ⟨hinv, hbuy, rfl⟩
      · have hres : runOp st (Op.close i p r) =
            ⟨st.trades.set i (dbCloseTrade t p r),
              st.cash + p * t.quantity, st.initialCash⟩ := by
          simp only [runOp, closeTrade_ok_open_buy st i t p r hget hc hb]
        rw [hres]
        have hopenT : t.status = Status.OPEN := by
          cases hst : t.status
          · rfl
          · exact absurd hst hc
        refine ⟨?_, ?_, rfl⟩
        · have hct : openBuyContrib t = t.entryPrice * t.quantity := by
            simp [openBuyContrib, hopenT, hb]
          have hca : openBuyContrib (dbCloseTrade t p r) = 0 := by
            simp [openBuyContrib, dbCloseTrade]
          have hopen : openBuyCost (st.trades.set i (dbCloseTrade t p r)) =
              openBuyCost st.trades - t.entryPrice * t.quantity := by
            unfold openBuyCost
            rw [sum_map_set openBuyContrib st.trades i (dbCloseTrade t p r) t
              hget, hct, hca]
            ring
          have hct2 : closedBuyContrib t = 0 := by
            simp [closedBuyContrib, hopenT]
          have hca2 : closedBuyContrib (dbCloseTrade t p r) =
              (p - t.entryPrice) * t.quantity := by
            simp [closedBuyContrib, dbCloseTrade, hb]
          have hclosed :
              closedBuyPnl (st.trades.set i (dbCloseTrade t p r)) =
                closedBuyPnl st.trades + (p - t.entryPrice) * t.quantity := by
            unfold closedBuyPnl
            rw [sum_map_set closedBuyContrib st.trades i (dbCloseTrade t p r)
              t hget, hct2, hca2]
            ring
          dsimp only
          rw [hopen, hclosed, hinv]
          ring
        · intro t' ht'
          rcases List.mem_or_eq_of_mem_set ht' with hmem | hmem
          · exact hbuy t' hmem
          · subst hmem
            simpa [dbCloseTrade] using hb

/-- The ledger invariant propagates through any valid operation
sequence. -/
lemma run_cash_equation (ops : List Op) :
    ∀ st : EngineState, (∀ op ∈ ops, ValidBuyOp op) →
      st.cash = st.initialCash - openBuyCost st.trades
        + closedBuyPnl st.trades →
      (∀ t ∈ st.trades, t.action = Signal.BUY) →
      (run st ops).cash = (run st ops).initialCash
          - openBuyCost (run st ops).trades
          + closedBuyPnl (run st ops).trades ∧
      (run st ops).initialCash = st.initialCash := by
  induction ops with
  | nil => exact fun st _ hinv _ => ⟨hinv, rfl⟩
  | cons op ops ih =>
    intro st hv hinv hbuy
    obtain ⟨h1, h2, h3⟩ := runOp_cash_equation st op
      (hv op (List.mem_cons_self op ops)) hinv hbuy
    have hrun : run st (op :: ops) = run (runOp st op) ops := rfl
    rw [hrun]
    obtain ⟨g1, g2⟩ := ih (runOp st op)
      (fun o ho => hv o (List.mem_cons_of_mem op ho)) h1 h2
    exact ⟨g1, g2.trans h3⟩

/-- C1: after any sequence of BUY `executeTrade` and `closeTrade`
operations from the initial portfolio, the final cash equals the initial
cash minus the entry costs of still-OPEN BUY trades plus the stored net
pnl of CLOSED BUY trades. -/
theorem portfolio_cash_invariant (initialCash : ℚ) (ops : List Op)
    (hops : ∀ op ∈ ops, ValidBuyOp op) :
    (run (initialState initialCash) ops).cash =
      initialCash
        - openBuyCost (run (initialState initialCash) ops).trades
        + closedBuyPnl (run (initialState initialCash) ops).trades := by
  obtain ⟨h1, h2⟩ := run_cash_equation ops (initialState initialCash) hops
    (by simp [initialState, openBuyCost, closedBuyPnl])
    (by simp [initialState])
  rw [h1, h2]
  rfl

/-- The operation sequence of the C1 witness: execute one BUY of 10 shares
at 50, then close it at 60. -/
def c1ops : List Op :=
  [Op.exec
    { symbol := "AAPL", action := Signal.BUY, quantity := 10,
      entryPrice := 50, stopLoss := 45, takeProfit := 65,
      status := Status.OPEN },
   Op.close 0 60 "take profit"]

/-- Witness for C1: the invariant holds concretely for one BUY execution
followed by its close. -/
theorem portfolio_cash_invariant_witness :
    (∀ op ∈ c1ops, ValidBuyOp op) ∧
    (run (initialState 1000) c1ops).cash =
      1000 - openBuyCost (run (initialState 1000) c1ops).trades
        + closedBuyPnl (run (initialState 1000) c1ops).trades := by
  have hv : ∀ op ∈ c1ops, ValidBuyOp op := by
    simp [c1ops, List.forall_mem_cons, ValidBuyOp]
  exact ⟨hv, portfolio_cash_invariant 1000 c1ops hv⟩

end TradingAlgo
